import Mathlib

/-!
QEArchiveStatus: the archiver host status panel.

A shallow embedding of `qeframeworkSup/project/archive/QEArchiveStatus.cpp`.

* A `QLabel` is reduced to the two attributes the file touches: its text and
  the flag last given to `setVisible`.  A label pointer is an `Option QLabel`;
  `none` is the `NULL` pointer and calling a method through it is a fault.
* `rowList` is the C array of label rows; slot `NumberRows` holds the header.
* `QEArchiveAccess::getArchiverType ()` is external: every operation takes the
  value it returns during that operation as an argument.
* `QString::arg` follows the Qt rule: the lowest numbered place marker of the
  receiver is the one replaced, so a chain `.arg (a).arg (b)` scans the text
  of `a` again when `b` is put in.
* `int` arithmetic is 32 bit; where C++ leaves a signed overflow undefined the
  model takes the two's complement value.
* `minimumHeight` is the value handed to `setMinimumHeight`.
* `NumberRows`, declared in the header file, is a parameter.
-/

namespace QEArchiveStatus

/-! ## The collaborator's types -/

/-- The archiver kinds of `QEArchiveAccess::ArchiverTypes`. -/
inductive ArchiverTypes where
  | CA
  | ARCHAPPL
  | Error
  deriving DecidableEq, Repr

/-- One entry of `QEArchiveAccess::StatusList`.  The state enumeration lives
outside this file; it is a type parameter. -/
structure Status (σ : Type) where
  hostName : String
  portNumber : Int
  endPoint : String
  state : σ
  available : Int
  read : Int
  numberPVs : Int
  pending : Int

/-! ## Machine integers -/

/-- The 32 bit signed `int` that an arithmetic result `x` becomes (two's complement). -/
def wrapInt (x : Int) : Int := (x + 2147483648) % 4294967296 - 2147483648

/-! ## QString::arg -/

/-- A piece of a scanned string: a plain character, or a place marker
`%n` / `%Ln` together with the characters that spell it. -/
inductive Piece where
  | lit (c : Char)
  | esc (n : Nat) (loc : Bool) (raw : List Char)
  deriving DecidableEq, Repr

/-- Where the place marker scanner stands. -/
inductive ScanState where
  | text
  | percent
  | percentL
  | digit (a : Nat) (loc : Bool) (raw : List Char)
  deriving DecidableEq, Repr

/-- The decimal value of an ASCII digit (`QChar::digitValue`, -1 is `none`). -/
def digitValue (c : Char) : Option Nat :=
  if 48 ≤ c.toNat ∧ c.toNat ≤ 57 then some (c.toNat - 48) else none

/-- The scanner on a character met outside a marker. -/
def scanText (c : Char) : List Piece × ScanState :=
  if c = '%' then ([], ScanState.percent) else ([Piece.lit c], ScanState.text)

/-- One step of the scanner of `findArgEscapes`: after `%` an optional `L`,
then one or two digits; anything else ends the attempt and the scan resumes
at the offending character. -/
def scanStep (st : ScanState) (c : Char) : List Piece × ScanState :=
  match st with
  | ScanState.text => scanText c
  | ScanState.percent =>
    if c = 'L' then ([], ScanState.percentL)
    else match digitValue c with
      | some a => ([], ScanState.digit a false ['%', c])
      | none => let r := scanText c; (Piece.lit '%' :: r.1, r.2)
  | ScanState.percentL =>
    match digitValue c with
    | some a => ([], ScanState.digit a true ['%', 'L', c])
    | none => let r := scanText c; (Piece.lit '%' :: Piece.lit 'L' :: r.1, r.2)
  | ScanState.digit a loc raw =>
    match digitValue c with
    | some b => ([Piece.esc (10 * a + b) loc (raw ++ [c])], ScanState.text)
    | none => let r := scanText c; (Piece.esc a loc raw :: r.1, r.2)

/-- What the scanner still holds when the string ends. -/
def scanEnd (st : ScanState) : List Piece :=
  match st with
  | ScanState.text => []
  | ScanState.percent => [Piece.lit '%']
  | ScanState.percentL => [Piece.lit '%', Piece.lit 'L']
  | ScanState.digit a loc raw => [Piece.esc a loc raw]

/-- The pieces of a string, scanned from state `st`. -/
def scanEscapes (st : ScanState) : List Char → List Piece
  | [] => scanEnd st
  | c :: cs => (scanStep st c).1 ++ scanEscapes (scanStep st c).2 cs

/-- The lowest place marker number among the pieces (`min_escape`), if any. -/
def minEscape : List Piece → Option Nat
  | [] => none
  | Piece.lit _ :: ps => minEscape ps
  | Piece.esc n _ _ :: ps =>
    match minEscape ps with
    | none => some n
    | some m => some (min n m)

/-- The text of one piece once marker `m` is replaced (`replaceArgEscapes`
with field width 0): `larg` goes to the `L` markers, `arg` to the others. -/
def renderPiece (m : Nat) (arg larg : List Char) : Piece → List Char
  | Piece.lit c => [c]
  | Piece.esc n loc raw => if n = m then (if loc then larg else arg) else raw

/-- `replaceArgEscapes`: with no marker the string is returned as it is. -/
def replaceArgEscapes (s arg larg : List Char) : List Char :=
  match minEscape (scanEscapes ScanState.text s) with
  | none => s
  | some m => ((scanEscapes ScanState.text s).map (renderPiece m arg larg)).flatten

/-- `QString::arg (const QString&)`. -/
def arg (s a : String) : String :=
  String.mk (replaceArgEscapes s.data a.data a.data)

/-- `QString::arg (int)`: base 10; grouping of the `L` form is not modelled,
no template of this file carries an `L` marker. -/
def argInt (s : String) (a : Int) : String :=
  String.mk (replaceArgEscapes s.data (toString a).data (toString a).data)

/-! ## Labels and rows -/

/-- What can go wrong in C++ where the model has no value to give. -/
inductive Fault where
  | nullPointer
  | outOfBounds
  deriving DecidableEq, Repr

/-- A `QLabel`: its text, and whether it is shown (the flag last given to
`setVisible`; a label placed in the layout is shown until hidden). -/
structure QLabel where
  text : String
  visible : Bool
  deriving DecidableEq, Repr

/-- `label->setVisible (visible)` through a pointer. -/
def setVisible (visible : Bool) (label : Option QLabel) : Except Fault (Option QLabel) :=
  match label with
  | none => Except.error Fault.nullPointer
  | some w => Except.ok (some { w with visible := visible })

/-- `label->setText (text)` through a pointer. -/
def setText (text : String) (label : Option QLabel) : Except Fault (Option QLabel) :=
  match label with
  | none => Except.error Fault.nullPointer
  | some w => Except.ok (some { w with text := text })

/-- `struct Rows`: the seven label pointers of one slot of `rowList`. -/
structure Rows where
  hostNamePort : Option QLabel
  endPoint : Option QLabel
  state : Option QLabel
  available : Option QLabel
  read : Option QLabel
  numberPVs : Option QLabel
  pending : Option QLabel
  deriving DecidableEq, Repr

/-- The widget: the label array and the attributes of the group box that the
file sets. -/
structure Panel where
  rowList : List Rows
  inUseCount : Int
  minimumHeight : Int
  minimumWidth : Int
  title : String
  deriving DecidableEq, Repr

/-! ## The member functions -/

/-- Lines 43-51: the body of `setStatusRowVisible` on the row it points at. -/
def setRowVisible (getArchiverType : ArchiverTypes) (visible : Bool) (row : Rows) :
    Except Fault Rows := do
  let hostNamePort ← setVisible visible row.hostNamePort
  let endPoint ← setVisible visible row.endPoint
  let state ← setVisible visible row.state
  let numberPVs ← setVisible visible row.numberPVs
  let row := { row with hostNamePort := hostNamePort, endPoint := endPoint,
                        state := state, numberPVs := numberPVs }
  if getArchiverType = ArchiverTypes.CA then
    let available ← setVisible visible row.available
    let read ← setVisible visible row.read
    let pending ← setVisible visible row.pending
    pure { row with available := available, read := read, pending := pending }
  else
    pure row

/-- `QEArchiveStatus::setStatusRowVisible`; `ARRAY_LENGTH (this->rowList)` is
the length of the array. -/
def setStatusRowVisible (getArchiverType : ArchiverTypes) (j : Int) (visible : Bool)
    (p : Panel) : Except Fault Panel :=
  if j < 0 ∨ j ≥ (p.rowList.length : Int) then pure p   -- sanity check
  else
    match p.rowList[j.toNat]? with
    | none => Except.error Fault.outOfBounds
    | some row => do
      let row ← setRowVisible getArchiverType visible row
      pure { p with rowList := p.rowList.set j.toNat row }

/-- `new QLabel (text, NULL)` placed in the grid. -/
def newLabel (text : String) : Option QLabel := some { text := text, visible := true }

/-- The seven `CREATE_LABEL` steps of one slot, all with the text of that
slot's column or a `NULL` where the archiver kind has no such column. -/
def createRow (archType : ArchiverTypes) (hostNamePort endPoint state available read
    numberPVs pending : String) : Rows :=
  { hostNamePort := newLabel hostNamePort
    endPoint := newLabel endPoint
    state := newLabel state
    available := if archType = ArchiverTypes.CA then newLabel available else none
    read := if archType = ArchiverTypes.CA then newLabel read else none
    numberPVs := newLabel numberPVs
    pending := if archType = ArchiverTypes.CA then newLabel pending else none }

/-- A slot of the array before anything is stored in it. -/
def blankRow : Rows :=
  { hostNamePort := none, endPoint := none, state := none, available := none,
    read := none, numberPVs := none, pending := none }

/-- The body of the loop of `createInternalWidgets` for data row `j`. -/
def createDataRow (getArchiverType : ArchiverTypes) (p : Panel) (j : Nat) :
    Except Fault Panel :=
  if j < p.rowList.length then
    let row := createRow getArchiverType " - " " - " " - " " - " " - " " - " " - "
    let p := { p with rowList := p.rowList.set j row }
    -- Set only two rows visible until we know better.
    setStatusRowVisible getArchiverType (j : Int) (decide (j < 2)) p
  else Except.error Fault.outOfBounds

/-- `QEArchiveStatus::createInternalWidgets` on a widget whose array has
`NumberRows + 1` slots: the header goes to slot `NumberRows`, then the data
rows are made. -/
def createInternalWidgets (NumberRows : Nat) (getArchiverType : ArchiverTypes) (p : Panel) :
    Except Fault Panel :=
  let header := createRow getArchiverType "Host:Port" "End Point" "Status" "Available" "Read"
    "Num PVs" "Pending"
  let p := { p with rowList := (List.replicate (NumberRows + 1) blankRow).set NumberRows header }
  (List.range NumberRows).foldlM (createDataRow getArchiverType) p

/-- `QEArchiveStatus::calcMinimumHeight`. -/
def calcMinimumHeight (p : Panel) : Panel :=
  -- Allow +1 for titles.
  let count := wrapInt (p.inUseCount + 1)
  let delta_top : Int := 20
  { p with minimumHeight := wrapInt (wrapInt (delta_top * count) + 24) }

/-- The group box title chosen by the constructor. -/
def titleOf (archType : ArchiverTypes) : String :=
  match archType with
  | ArchiverTypes.CA => " Channel Archiver Host Status "
  | ArchiverTypes.ARCHAPPL => " Archive Appliance Host Status "
  | ArchiverTypes.Error => " Archive Status Summary "

/-- A group box before the constructor body runs. -/
def freshWidget : Panel :=
  { rowList := [], inUseCount := 0, minimumHeight := 0, minimumWidth := 0, title := "" }

/-- The constructor `QEArchiveStatus::QEArchiveStatus`, up to the point where
it asks the collaborator to resend the status. -/
def construct (NumberRows : Nat) (getArchiverType : ArchiverTypes) : Except Fault Panel := do
  let p ← createInternalWidgets NumberRows getArchiverType freshWidget
  let p := { p with title := titleOf getArchiverType }
  let p := { p with inUseCount := 2 }
  let p := calcMinimumHeight p
  let p := { p with inUseCount := 0 }
  pure { p with minimumWidth := 776 }

/-- `QEArchiveStatus::sizeHint`: width and height. -/
def sizeHint : Int × Int := (776, 84)   -- two rows

/-- Lines 232-241: the texts of a row are set from one status entry. -/
def populateRow {σ : Type} (enumToString : σ → String) (getArchiverType : ArchiverTypes)
    (state : Status σ) (row : Rows) : Except Fault Rows := do
  -- Note the extra space at end
  let hostNamePort ← setText (argInt (arg "%1:%2 " state.hostName) state.portNumber)
                       row.hostNamePort
  let endPoint ← setText (arg "%1 " state.endPoint) row.endPoint
  let stateLabel ← setText (enumToString state.state) row.state
  let numberPVs ← setText (argInt "%1" state.numberPVs) row.numberPVs
  let row := { row with hostNamePort := hostNamePort, endPoint := endPoint,
                        state := stateLabel, numberPVs := numberPVs }
  if getArchiverType = ArchiverTypes.CA then
    let available ← setText (argInt "%1" state.available) row.available
    let read ← setText (argInt "%1" state.read) row.read
    let pending ← setText (argInt "%1" state.pending) row.pending
    pure { row with available := available, read := read, pending := pending }
  else
    pure row

/-- The body of the loop of `archiveStatus` for row `j`. -/
def archiveStatusRow {σ : Type} (enumToString : σ → String) (getArchiverType : ArchiverTypes)
    (statusList : List (Status σ)) (p : Panel) (j : Nat) : Except Fault Panel :=
  match p.rowList[j]? with
  | none => Except.error Fault.outOfBounds
  | some row =>
    if h : j < statusList.length then do
      let state := statusList[j]
      let row ← populateRow enumToString getArchiverType state row
      let p := { p with rowList := p.rowList.set j row }
      setStatusRowVisible getArchiverType (j : Int) true p
    else
      setStatusRowVisible getArchiverType (j : Int) false p

/-- `QEArchiveStatus::archiveStatus`, the slot that receives a status list. -/
def archiveStatus {σ : Type} (enumToString : σ → String) (NumberRows : Nat)
    (getArchiverType : ArchiverTypes) (statusList : List (Status σ)) (p : Panel) :
    Except Fault Panel :=
  let p := { p with inUseCount := (statusList.length : Int) }
  let p := calcMinimumHeight p
  (List.range NumberRows).foldlM (archiveStatusRow enumToString getArchiverType statusList) p

/-! ## Observations on a panel -/

/-- The seven label pointers of a row, in declaration order. -/
def Rows.labels (r : Rows) : List (Option QLabel) :=
  [r.hostNamePort, r.endPoint, r.state, r.available, r.read, r.numberPVs, r.pending]

/-- The labels of a row that exist. -/
def Rows.present (r : Rows) : List QLabel := r.labels.reduceOption

/-- The text of every label position of a row (`none` where there is no label). -/
def Rows.texts (r : Rows) : List (Option String) := r.labels.map (Option.map QLabel.text)

/-- A row is visible when every label it has is shown. -/
def Rows.isVisible (r : Rows) : Bool := r.present.all fun w => w.visible

/-- A row is hidden when every label it has is hidden. -/
def Rows.isHidden (r : Rows) : Bool := r.present.all fun w => !w.visible

/-- A label position shows something: the label exists and is shown. -/
def shown (label : Option QLabel) : Bool :=
  match label with
  | none => false
  | some w => w.visible

/-- The number of visible data rows (slots `0 .. NumberRows - 1`). -/
def visibleRows (NumberRows : Nat) (p : Panel) : Nat :=
  ((p.rowList.take NumberRows).filter Rows.isVisible).length

/-- A row as `createInternalWidgets` makes it for archiver kind `t`: the four
common labels exist, the three count labels exist exactly for `CA`. -/
def RowWF (t : ArchiverTypes) (r : Rows) : Prop :=
  r.hostNamePort.isSome = true ∧ r.endPoint.isSome = true ∧ r.state.isSome = true ∧
  r.numberPVs.isSome = true ∧
  (r.available.isSome = true ↔ t = ArchiverTypes.CA) ∧
  (r.read.isSome = true ↔ t = ArchiverTypes.CA) ∧
  (r.pending.isSome = true ↔ t = ArchiverTypes.CA)

instance (t : ArchiverTypes) (r : Rows) : Decidable (RowWF t r) := by
  unfold RowWF; exact inferInstance

/-- A row on which the member functions can work while `getArchiverType` returns
`t`: the four common labels exist, and for `CA` the three count labels too. -/
def RowOK (t : ArchiverTypes) (r : Rows) : Prop :=
  r.hostNamePort.isSome = true ∧ r.endPoint.isSome = true ∧ r.state.isSome = true ∧
  r.numberPVs.isSome = true ∧
  (t = ArchiverTypes.CA →
    r.available.isSome = true ∧ r.read.isSome = true ∧ r.pending.isSome = true)

instance (t : ArchiverTypes) (r : Rows) : Decidable (RowOK t r) := by
  unfold RowOK; exact inferInstance

/-- A panel object of a build with `NumberRows` data rows, constructed for
archiver kind `t`: the array has `NumberRows + 1` slots, each as made for `t`. -/
def WF (NumberRows : Nat) (t : ArchiverTypes) (p : Panel) : Prop :=
  p.rowList.length = NumberRows + 1 ∧ ∀ r ∈ p.rowList, RowWF t r

instance (n : Nat) (t : ArchiverTypes) (p : Panel) : Decidable (WF n t p) := by
  unfold WF; exact inferInstance

/-- A panel object of a build with `NumberRows` data rows on which the member
functions can work while `getArchiverType` returns `t`, whatever kind it was
constructed for. -/
def Usable (NumberRows : Nat) (t : ArchiverTypes) (p : Panel) : Prop :=
  p.rowList.length = NumberRows + 1 ∧ ∀ r ∈ p.rowList, RowOK t r

instance (n : Nat) (t : ArchiverTypes) (p : Panel) : Decidable (Usable n t p) := by
  unfold Usable; exact inferInstance

/-- The states a panel goes through when, after construction, it only
receives status lists; the archiver kind stays `t`. -/
inductive Delivered {σ : Type} (enumToString : σ → String) (NumberRows : Nat)
    (t : ArchiverTypes) : Panel → Prop where
  | init {p : Panel} : construct NumberRows t = Except.ok p →
      Delivered enumToString NumberRows t p
  | deliver {p q : Panel} (statusList : List (Status σ)) :
      Delivered enumToString NumberRows t p →
      archiveStatus enumToString NumberRows t statusList p = Except.ok q →
      Delivered enumToString NumberRows t q

/-- The states a panel goes through when, after construction, status lists
are delivered and `setStatusRowVisible` is called at will; the archiver kind
stays `t`. -/
inductive Reachable {σ : Type} (enumToString : σ → String) (NumberRows : Nat)
    (t : ArchiverTypes) : Panel → Prop where
  | init {p : Panel} : construct NumberRows t = Except.ok p →
      Reachable enumToString NumberRows t p
  | deliver {p q : Panel} (statusList : List (Status σ)) :
      Reachable enumToString NumberRows t p →
      archiveStatus enumToString NumberRows t statusList p = Except.ok q →
      Reachable enumToString NumberRows t q
  | rowVisible {p q : Panel} (j : Int) (visible : Bool) :
      Reachable enumToString NumberRows t p →
      setStatusRowVisible t j visible p = Except.ok q →
      Reachable enumToString NumberRows t q

/-! ## The effect of the member functions, written without faults -/

/-- A label pointer after `setVisible`, when it is not `NULL`. -/
def withVisible (v : Bool) (label : Option QLabel) : Option QLabel :=
  label.map fun w => { w with visible := v }

/-- A label pointer after `setText`, when it is not `NULL`. -/
def withText (text : String) (label : Option QLabel) : Option QLabel :=
  label.map fun w => { w with text := text }

/-- A row after `setRowVisible`. -/
def rowShown (t : ArchiverTypes) (v : Bool) (r : Rows) : Rows :=
  { hostNamePort := withVisible v r.hostNamePort
    endPoint := withVisible v r.endPoint
    state := withVisible v r.state
    numberPVs := withVisible v r.numberPVs
    available := if t = ArchiverTypes.CA then withVisible v r.available else r.available
    read := if t = ArchiverTypes.CA then withVisible v r.read else r.read
    pending := if t = ArchiverTypes.CA then withVisible v r.pending else r.pending }

/-- A row after `populateRow`. -/
def rowFilled {σ : Type} (enumToString : σ → String) (t : ArchiverTypes) (st : Status σ)
    (r : Rows) : Rows :=
  { hostNamePort := withText (argInt (arg "%1:%2 " st.hostName) st.portNumber) r.hostNamePort
    endPoint := withText (arg "%1 " st.endPoint) r.endPoint
    state := withText (enumToString st.state) r.state
    numberPVs := withText (argInt "%1" st.numberPVs) r.numberPVs
    available :=
      if t = ArchiverTypes.CA then withText (argInt "%1" st.available) r.available
      else r.available
    read := if t = ArchiverTypes.CA then withText (argInt "%1" st.read) r.read else r.read
    pending :=
      if t = ArchiverTypes.CA then withText (argInt "%1" st.pending) r.pending
      else r.pending }

/-- Row `j` after one pass of the loop of `archiveStatus`. -/
def rowUpdated {σ : Type} (enumToString : σ → String) (t : ArchiverTypes)
    (statusList : List (Status σ)) (j : Nat) (r : Rows) : Rows :=
  if h : j < statusList.length then
    rowShown t true (rowFilled enumToString t statusList[j] r)
  else rowShown t false r

/-- The array after the first `k` passes of the loop of `archiveStatus`. -/
def rowsUpdated {σ : Type} (enumToString : σ → String) (t : ArchiverTypes)
    (statusList : List (Status σ)) (k : Nat) (rows : List Rows) : List Rows :=
  rows.mapIdx fun i r => if i < k then rowUpdated enumToString t statusList i r else r

/-- Data row `j` as the loop of `createInternalWidgets` leaves it. -/
def dataRow (t : ArchiverTypes) (j : Nat) : Rows :=
  rowShown t (decide (j < 2)) (createRow t " - " " - " " - " " - " " - " " - " " - ")

/-- The header row. -/
def headerRow (t : ArchiverTypes) : Rows :=
  createRow t "Host:Port" "End Point" "Status" "Available" "Read" "Num PVs" "Pending"

/-- The array after the first `k` passes of the loop of `createInternalWidgets`. -/
def rowsCreated (t : ArchiverTypes) (k : Nat) (rows : List Rows) : List Rows :=
  rows.mapIdx fun i r => if i < k then dataRow t i else r

/-- The array a constructed panel starts with. -/
def initialRows (n : Nat) (t : ArchiverTypes) : List Rows :=
  rowsCreated t n ((List.replicate (n + 1) blankRow).set n (headerRow t))

/-! ## Sample data -/

/-- Modelled from the spec: the archiver state enumeration is declared in a header
that is not part of this development; the spec names one of its values, Running. -/
inductive States where
  | Running
  deriving DecidableEq, Repr

/-- Modelled from the spec: `QEUtilities::enumToString` gives the human-readable name
of a state; its code is not part of this development. -/
def stateName : States → String
  | States.Running => "Running"

/-- The status entry of the spec's example; the counts it leaves open are 7, 5 and 3. -/
def exampleStatus : Status States :=
  { hostName := "arc1", portNumber := 5064, endPoint := "/data", state := States.Running,
    available := 7, read := 5, numberPVs := 120, pending := 3 }

/-- A freshly constructed panel with two data rows. -/
def examplePanel (t : ArchiverTypes) : Panel :=
  match construct 2 t with
  | Except.ok p => p
  | Except.error _ => freshWidget

/-- The example panel after the example status list was delivered. -/
def exampleDelivered (t : ArchiverTypes) : Panel :=
  match archiveStatus stateName 2 t [exampleStatus] (examplePanel t) with
  | Except.ok p => p
  | Except.error _ => freshWidget

/-- The delivered example panel after `setStatusRowVisible (1, true)`. -/
def exampleToggled (t : ArchiverTypes) : Panel :=
  match setStatusRowVisible t 1 true (exampleDelivered t) with
  | Except.ok p => p
  | Except.error _ => freshWidget

/-! ## Lemmas on QString::arg -/

theorem scanEscapes_no_percent (cs rest : List Char) (h : '%' ∉ cs) :
    scanEscapes ScanState.text (cs ++ rest) =
      cs.map Piece.lit ++ scanEscapes ScanState.text rest := by
  induction cs with
  | nil => rfl
  | cons c cs ih =>
    have hc : c ≠ '%' := fun e => h (by simp [e])
    have hcs : '%' ∉ cs := fun e => h (by simp [e])
    simp [scanEscapes, scanStep, scanText, hc, ih hcs]

theorem minEscape_lits (cs : List Char) (ps : List Piece) :
    minEscape (cs.map Piece.lit ++ ps) = minEscape ps := by
  induction cs with
  | nil => rfl
  | cons c cs ih => simpa [minEscape] using ih

theorem render_lits (m : Nat) (a b cs : List Char) :
    (cs.map (renderPiece m a b ∘ Piece.lit)).flatten = cs := by
  induction cs with
  | nil => rfl
  | cons c cs ih => simpa [renderPiece] using ih

/-- The end point template: `QString ("%1 ").arg (e)` is `e` and a space. -/
theorem arg_endPoint (e : String) : arg "%1 " e = e ++ " " := by
  cases e with
  | mk cs => rfl

/-- The count template: `QString ("%1").arg (n)` is the decimal text of `n`. -/
theorem argInt_count (n : Int) : argInt "%1" n = toString n := by
  show String.mk ((toString n).data ++ []) = toString n
  simp

/-- The host and port template, for a host name without a percent sign. -/
theorem arg_hostNamePort (h : String) (port : Int) (hp : '%' ∉ h.data) :
    argInt (arg "%1:%2 " h) port = h ++ ":" ++ toString port ++ " " := by
  have e1 : (arg "%1:%2 " h).data = h.data ++ [':', '%', '2', ' '] := by
    cases h with
    | mk cs => rfl
  have e2 : scanEscapes ScanState.text (h.data ++ [':', '%', '2', ' ']) =
      h.data.map Piece.lit ++
        [Piece.lit ':', Piece.esc 2 false ['%', '2'], Piece.lit ' '] := by
    rw [scanEscapes_no_percent _ _ hp]; rfl
  apply String.ext
  simp only [argInt, e1, replaceArgEscapes, e2, minEscape_lits]
  simp [minEscape, renderPiece, render_lits, List.map_append, String.data_append]

/-! ## Lemmas on rows -/

theorem RowWF.ok {t : ArchiverTypes} {r : Rows} (h : RowWF t r) : RowOK t r :=
  ⟨h.1, h.2.1, h.2.2.1, h.2.2.2.1,
    fun ht => ⟨h.2.2.2.2.1.2 ht, h.2.2.2.2.2.1.2 ht, h.2.2.2.2.2.2.2 ht⟩⟩

theorem setRowVisible_eq (t : ArchiverTypes) (v : Bool) (r : Rows) (h : RowOK t r) :
    setRowVisible t v r = Except.ok (rowShown t v r) := by
  obtain ⟨a, b, c, d, e, f, g⟩ := r
  obtain ⟨h1, h2, h3, h4, h5⟩ := h
  simp only at h1 h2 h3 h4 h5
  obtain ⟨a, rfl⟩ := Option.isSome_iff_exists.1 h1
  obtain ⟨b, rfl⟩ := Option.isSome_iff_exists.1 h2
  obtain ⟨c, rfl⟩ := Option.isSome_iff_exists.1 h3
  obtain ⟨f, rfl⟩ := Option.isSome_iff_exists.1 h4
  by_cases ht : t = ArchiverTypes.CA
  · obtain ⟨d, rfl⟩ := Option.isSome_iff_exists.1 (h5 ht).1
    obtain ⟨e, rfl⟩ := Option.isSome_iff_exists.1 (h5 ht).2.1
    obtain ⟨g, rfl⟩ := Option.isSome_iff_exists.1 (h5 ht).2.2
    simp [setRowVisible, setVisible, rowShown, withVisible, ht, bind, Except.bind, pure,
      Except.pure]
  · simp [setRowVisible, setVisible, rowShown, withVisible, ht, bind, Except.bind, pure,
      Except.pure]

theorem populateRow_eq {σ : Type} (f : σ → String) (t : ArchiverTypes) (st : Status σ)
    (r : Rows) (h : RowOK t r) :
    populateRow f t st r = Except.ok (rowFilled f t st r) := by
  obtain ⟨a, b, c, d, e, f', g⟩ := r
  obtain ⟨h1, h2, h3, h4, h5⟩ := h
  simp only at h1 h2 h3 h4 h5
  obtain ⟨a, rfl⟩ := Option.isSome_iff_exists.1 h1
  obtain ⟨b, rfl⟩ := Option.isSome_iff_exists.1 h2
  obtain ⟨c, rfl⟩ := Option.isSome_iff_exists.1 h3
  obtain ⟨f', rfl⟩ := Option.isSome_iff_exists.1 h4
  by_cases ht : t = ArchiverTypes.CA
  · obtain ⟨d, rfl⟩ := Option.isSome_iff_exists.1 (h5 ht).1
    obtain ⟨e, rfl⟩ := Option.isSome_iff_exists.1 (h5 ht).2.1
    obtain ⟨g, rfl⟩ := Option.isSome_iff_exists.1 (h5 ht).2.2
    simp [populateRow, setText, rowFilled, withText, ht, bind, Except.bind, pure,
      Except.pure]
  · simp [populateRow, setText, rowFilled, withText, ht, bind, Except.bind, pure,
      Except.pure]

theorem withVisible_isSome (v : Bool) (l : Option QLabel) :
    (withVisible v l).isSome = l.isSome := by
  cases l <;> rfl

theorem withText_isSome (s : String) (l : Option QLabel) :
    (withText s l).isSome = l.isSome := by
  cases l <;> rfl

theorem rowShown_wf (t t' : ArchiverTypes) (v : Bool) (r : Rows) (h : RowWF t r) :
    RowWF t (rowShown t' v r) := by
  unfold RowWF rowShown at *
  by_cases ht : t' = ArchiverTypes.CA <;> simpa [ht, withVisible_isSome] using h

theorem rowFilled_wf {σ : Type} (f : σ → String) (t t' : ArchiverTypes) (st : Status σ)
    (r : Rows) (h : RowWF t r) : RowWF t (rowFilled f t' st r) := by
  unfold RowWF rowFilled at *
  by_cases ht : t' = ArchiverTypes.CA <;> simpa [ht, withText_isSome] using h

theorem rowUpdated_wf {σ : Type} (f : σ → String) (t : ArchiverTypes)
    (s : List (Status σ)) (j : Nat) (r : Rows) (h : RowWF t r) :
    RowWF t (rowUpdated f t s j r) := by
  unfold rowUpdated
  split
  · exact rowShown_wf _ _ _ _ (rowFilled_wf _ _ _ _ _ h)
  · exact rowShown_wf _ _ _ _ h

theorem rowShown_ok (t t' : ArchiverTypes) (v : Bool) (r : Rows) (h : RowOK t r) :
    RowOK t (rowShown t' v r) := by
  unfold RowOK rowShown at *
  by_cases ht : t' = ArchiverTypes.CA <;> simpa [ht, withVisible_isSome] using h

theorem rowFilled_ok {σ : Type} (f : σ → String) (t t' : ArchiverTypes) (st : Status σ)
    (r : Rows) (h : RowOK t r) : RowOK t (rowFilled f t' st r) := by
  unfold RowOK rowFilled at *
  by_cases ht : t' = ArchiverTypes.CA <;> simpa [ht, withText_isSome] using h

theorem rowUpdated_ok {σ : Type} (f : σ → String) (t : ArchiverTypes)
    (s : List (Status σ)) (j : Nat) (r : Rows) (h : RowOK t r) :
    RowOK t (rowUpdated f t s j r) := by
  unfold rowUpdated
  split
  · exact rowShown_ok _ _ _ _ (rowFilled_ok _ _ _ _ _ h)
  · exact rowShown_ok _ _ _ _ h

theorem createRow_wf (t : ArchiverTypes) (a b c d e f g : String) :
    RowWF t (createRow t a b c d e f g) := by
  cases t <;> simp [RowWF, createRow, newLabel]

theorem dataRow_wf (t : ArchiverTypes) (j : Nat) : RowWF t (dataRow t j) :=
  rowShown_wf _ _ _ _ (createRow_wf _ _ _ _ _ _ _ _)

/-! ## Lemmas on the member functions -/

theorem setStatusRowVisible_outside (t : ArchiverTypes) (j : Int) (v : Bool) (p : Panel)
    (h : j < 0 ∨ (p.rowList.length : Int) ≤ j) :
    setStatusRowVisible t j v p = Except.ok p := by
  unfold setStatusRowVisible
  rw [if_pos (by simpa using h)]
  rfl

theorem setStatusRowVisible_inside (t : ArchiverTypes) (j : Nat) (v : Bool) (p : Panel)
    (r : Rows) (hr : p.rowList[j]? = some r) (hwf : RowOK t r) :
    setStatusRowVisible t (j : Int) v p =
      Except.ok { p with rowList := p.rowList.set j (rowShown t v r) } := by
  have hlt : j < p.rowList.length := by
    rcases List.getElem?_eq_some_iff.1 hr with ⟨hj, _⟩
    exact hj
  unfold setStatusRowVisible
  rw [if_neg (by simp; omega)]
  simp [hr, setRowVisible_eq t v r hwf, bind, Except.bind, pure, Except.pure]

theorem archiveStatusRow_eq {σ : Type} (f : σ → String) (t : ArchiverTypes)
    (s : List (Status σ)) (p : Panel) (j : Nat) (r : Rows)
    (hr : p.rowList[j]? = some r) (hwf : RowOK t r) :
    archiveStatusRow f t s p j =
      Except.ok { p with rowList := p.rowList.set j (rowUpdated f t s j r) } := by
  have hlt : j < p.rowList.length := by
    rcases List.getElem?_eq_some_iff.1 hr with ⟨hj, _⟩
    exact hj
  unfold archiveStatusRow rowUpdated
  simp only [hr]
  split
  · rename_i hj
    simp only [populateRow_eq f t _ r hwf, bind, Except.bind]
    rw [setStatusRowVisible_inside t j true _ (rowFilled f t s[j] r)
      (by simp [hlt]) (rowFilled_ok _ _ _ _ _ hwf)]
    simp
  · exact setStatusRowVisible_inside t j false p r hr hwf

theorem rowsUpdated_zero {σ : Type} (f : σ → String) (t : ArchiverTypes)
    (s : List (Status σ)) (rows : List Rows) : rowsUpdated f t s 0 rows = rows := by
  apply List.ext_getElem?
  intro i
  simp [rowsUpdated]

theorem getElem?_rowsUpdated {σ : Type} (f : σ → String) (t : ArchiverTypes)
    (s : List (Status σ)) (k : Nat) (rows : List Rows) (i : Nat) :
    (rowsUpdated f t s k rows)[i]? =
      (rows[i]?).map fun r => if i < k then rowUpdated f t s i r else r := by
  simp [rowsUpdated]

theorem rowsUpdated_succ {σ : Type} (f : σ → String) (t : ArchiverTypes)
    (s : List (Status σ)) (k : Nat) (rows : List Rows) (r : Rows) (hr : rows[k]? = some r) :
    (rowsUpdated f t s k rows).set k (rowUpdated f t s k r) =
      rowsUpdated f t s (k + 1) rows := by
  have hlt : k < rows.length := by
    rcases List.getElem?_eq_some_iff.1 hr with ⟨hj, _⟩
    exact hj
  apply List.ext_getElem?
  intro i
  rw [List.getElem?_set, getElem?_rowsUpdated, getElem?_rowsUpdated]
  by_cases hik : k = i
  · subst hik
    simp [hr, rowsUpdated, hlt]
  · rw [if_neg hik]
    cases hri : rows[i]? with
    | none => rfl
    | some x =>
      have h1 : (i < k + 1) ↔ (i < k) := by omega
      simp [h1]

/-- The loop of `archiveStatus`, pass by pass. -/
theorem archiveStatus_loop {σ : Type} (f : σ → String) (t : ArchiverTypes)
    (s : List (Status σ)) (p : Panel) (k : Nat)
    (hwf : ∀ i, i < k → ∃ r, p.rowList[i]? = some r ∧ RowOK t r) :
    (List.range k).foldlM (archiveStatusRow f t s) p =
      Except.ok { p with rowList := rowsUpdated f t s k p.rowList } := by
  induction k with
  | zero => simp [rowsUpdated_zero, pure, Except.pure]
  | succ k ih =>
    obtain ⟨r, hr, hrw⟩ := hwf k (Nat.lt_succ_self k)
    rw [List.range_succ, List.foldlM_append, ih (fun i hi => hwf i (Nat.lt_succ_of_lt hi))]
    simp only [bind, Except.bind, List.foldlM_cons, List.foldlM_nil]
    rw [archiveStatusRow_eq f t s _ k r (by simp [getElem?_rowsUpdated, hr]) hrw]
    simp [rowsUpdated_succ f t s k p.rowList r hr, pure, Except.pure]

/-- The panel that `archiveStatus` returns. -/
theorem archiveStatus_eq {σ : Type} (f : σ → String) (n : Nat) (t : ArchiverTypes)
    (s : List (Status σ)) (p : Panel)
    (hwf : ∀ i, i < n → ∃ r, p.rowList[i]? = some r ∧ RowOK t r) :
    archiveStatus f n t s p =
      Except.ok { p with inUseCount := (s.length : Int)
                         minimumHeight := wrapInt (wrapInt (20 * wrapInt (s.length + 1)) + 24)
                         rowList := rowsUpdated f t s n p.rowList } := by
  unfold archiveStatus calcMinimumHeight
  simp only []
  rw [archiveStatus_loop f t s _ n (by simpa using hwf)]

theorem WF.wf_slot {n : Nat} {t : ArchiverTypes} {p : Panel} (h : WF n t p) (i : Nat)
    (hi : i < n + 1) : ∃ r, p.rowList[i]? = some r ∧ RowWF t r := by
  have hlt : i < p.rowList.length := by rw [h.1]; exact hi
  exact ⟨p.rowList[i], List.getElem?_eq_getElem hlt, h.2 _ (List.getElem_mem hlt)⟩

theorem WF.wf_data {n : Nat} {t : ArchiverTypes} {p : Panel} (h : WF n t p) :
    ∀ i, i < n → ∃ r, p.rowList[i]? = some r ∧ RowWF t r :=
  fun i hi => h.wf_slot i (Nat.lt_succ_of_lt hi)

theorem WF.usable {n : Nat} {t : ArchiverTypes} {p : Panel} (h : WF n t p) : Usable n t p :=
  ⟨h.1, fun r hr => (h.2 r hr).ok⟩

theorem Usable.ok_slot {n : Nat} {t : ArchiverTypes} {p : Panel} (h : Usable n t p) (i : Nat)
    (hi : i < n + 1) : ∃ r, p.rowList[i]? = some r ∧ RowOK t r := by
  have hlt : i < p.rowList.length := by rw [h.1]; exact hi
  exact ⟨p.rowList[i], List.getElem?_eq_getElem hlt, h.2 _ (List.getElem_mem hlt)⟩

theorem Usable.ok_data {n : Nat} {t : ArchiverTypes} {p : Panel} (h : Usable n t p) :
    ∀ i, i < n → ∃ r, p.rowList[i]? = some r ∧ RowOK t r :=
  fun i hi => h.ok_slot i (Nat.lt_succ_of_lt hi)

theorem createDataRow_eq (t : ArchiverTypes) (p : Panel) (j : Nat)
    (hj : j < p.rowList.length) :
    createDataRow t p j = Except.ok { p with rowList := p.rowList.set j (dataRow t j) } := by
  unfold createDataRow
  rw [if_pos hj]
  simp only []
  rw [setStatusRowVisible_inside t j (decide (j < 2)) _
    (createRow t " - " " - " " - " " - " " - " " - " " - ") (by simp [hj])
    (createRow_wf _ _ _ _ _ _ _ _).ok]
  simp [dataRow]

theorem getElem?_rowsCreated (t : ArchiverTypes) (k : Nat) (rows : List Rows) (i : Nat) :
    (rowsCreated t k rows)[i]? = (rows[i]?).map fun r => if i < k then dataRow t i else r := by
  simp [rowsCreated]

theorem length_rowsCreated (t : ArchiverTypes) (k : Nat) (rows : List Rows) :
    (rowsCreated t k rows).length = rows.length := by
  simp [rowsCreated]

theorem length_rowsUpdated {σ : Type} (f : σ → String) (t : ArchiverTypes)
    (s : List (Status σ)) (k : Nat) (rows : List Rows) :
    (rowsUpdated f t s k rows).length = rows.length := by
  simp [rowsUpdated]

theorem rowsCreated_succ (t : ArchiverTypes) (k : Nat) (rows : List Rows)
    (hk : k < rows.length) :
    (rowsCreated t k rows).set k (dataRow t k) = rowsCreated t (k + 1) rows := by
  apply List.ext_getElem?
  intro i
  rw [List.getElem?_set, getElem?_rowsCreated, getElem?_rowsCreated]
  by_cases hik : k = i
  · subst hik
    simp [length_rowsCreated, hk, List.getElem?_eq_getElem hk]
  · rw [if_neg hik]
    cases hri : rows[i]? with
    | none => rfl
    | some x =>
      have h1 : (i < k + 1) ↔ (i < k) := by omega
      simp [h1]

/-- The loop of `createInternalWidgets`, pass by pass. -/
theorem createInternalWidgets_loop (t : ArchiverTypes) (p : Panel) (k : Nat)
    (hk : k ≤ p.rowList.length) :
    (List.range k).foldlM (createDataRow t) p =
      Except.ok { p with rowList := rowsCreated t k p.rowList } := by
  induction k with
  | zero =>
    have h0 : rowsCreated t 0 p.rowList = p.rowList := by
      apply List.ext_getElem?
      intro i
      simp [rowsCreated]
    simp [h0, pure, Except.pure]
  | succ k ih =>
    rw [List.range_succ, List.foldlM_append, ih (Nat.le_of_succ_le hk)]
    simp only [bind, Except.bind, List.foldlM_cons, List.foldlM_nil]
    rw [createDataRow_eq t _ k (by simpa [length_rowsCreated] using hk)]
    simp [rowsCreated_succ t k p.rowList hk, pure, Except.pure]

/-- The panel that the constructor returns. -/
theorem construct_eq (n : Nat) (t : ArchiverTypes) :
    construct n t =
      Except.ok { rowList := initialRows n t, inUseCount := 0, minimumHeight := 84,
                  minimumWidth := 776, title := titleOf t } := by
  unfold construct createInternalWidgets
  simp only []
  rw [createInternalWidgets_loop t _ n (by simp)]
  simp [bind, Except.bind, pure, Except.pure, calcMinimumHeight, initialRows, headerRow,
    freshWidget]
  decide

theorem length_initialRows (n : Nat) (t : ArchiverTypes) :
    (initialRows n t).length = n + 1 := by
  simp [initialRows, length_rowsCreated]

theorem initialRows_data (n : Nat) (t : ArchiverTypes) (i : Nat) (hi : i < n) :
    (initialRows n t)[i]? = some (dataRow t i) := by
  have h1 : i < n + 1 := Nat.lt_succ_of_lt hi
  simp [initialRows, getElem?_rowsCreated, List.getElem?_set, hi, h1]

theorem initialRows_header (n : Nat) (t : ArchiverTypes) :
    (initialRows n t)[n]? = some (headerRow t) := by
  simp [initialRows, getElem?_rowsCreated, List.getElem?_set]

theorem initialRows_wf (n : Nat) (t : ArchiverTypes) :
    ∀ r ∈ initialRows n t, RowWF t r := by
  intro r hr
  obtain ⟨i, hi⟩ := List.mem_iff_getElem?.1 hr
  have hlt : i < n + 1 := by
    rcases List.getElem?_eq_some_iff.1 hi with ⟨hj, _⟩
    simpa [length_initialRows] using hj
  by_cases hin : i < n
  · rw [initialRows_data n t i hin] at hi
    cases hi
    exact dataRow_wf t i
  · have : i = n := by omega
    subst this
    rw [initialRows_header] at hi
    cases hi
    exact createRow_wf _ _ _ _ _ _ _ _

theorem construct_wf (n : Nat) (t : ArchiverTypes) (p : Panel)
    (h : construct n t = Except.ok p) : WF n t p := by
  rw [construct_eq] at h
  cases h
  exact ⟨length_initialRows n t, initialRows_wf n t⟩

theorem archiveStatus_wf {σ : Type} (f : σ → String) (n : Nat) (t : ArchiverTypes)
    (s : List (Status σ)) (p q : Panel) (hp : WF n t p)
    (h : archiveStatus f n t s p = Except.ok q) : WF n t q := by
  rw [archiveStatus_eq f n t s p hp.usable.ok_data] at h
  cases h
  refine ⟨by simpa [length_rowsUpdated] using hp.1, ?_⟩
  intro r hr
  obtain ⟨i, hi⟩ := List.mem_iff_getElem?.1 hr
  rw [getElem?_rowsUpdated] at hi
  cases hri : p.rowList[i]? with
  | none => simp [hri] at hi
  | some x =>
    have hx : RowWF t x := hp.2 x (List.mem_iff_getElem?.2 ⟨i, hri⟩)
    simp only [hri, Option.map_some', Option.some.injEq] at hi
    subst hi
    split
    · exact rowUpdated_wf f t s i x hx
    · exact hx

theorem setStatusRowVisible_wf (n : Nat) (t : ArchiverTypes) (j : Int) (v : Bool)
    (p : Panel) (hp : WF n t p) :
    ∃ q, setStatusRowVisible t j v p = Except.ok q ∧ WF n t q := by
  by_cases hj : j < 0 ∨ (p.rowList.length : Int) ≤ j
  · exact ⟨p, setStatusRowVisible_outside t j v p hj, hp⟩
  · have h0 : 0 ≤ j := by omega
    have h1 : j.toNat < n + 1 := by have := hp.1; omega
    obtain ⟨r, hr, hrw⟩ := hp.wf_slot j.toNat h1
    have hcast : ((j.toNat : Nat) : Int) = j := Int.toNat_of_nonneg h0
    refine ⟨{ p with rowList := p.rowList.set j.toNat (rowShown t v r) }, ?_, ?_⟩
    · have h := setStatusRowVisible_inside t j.toNat v p r hr hrw.ok
      rw [hcast] at h
      exact h
    · refine ⟨by simpa using hp.1, ?_⟩
      intro x hx
      rcases List.mem_or_eq_of_mem_set hx with hx | hx
      · exact hp.2 x hx
      · subst hx
        exact rowShown_wf t t v r hrw

/-! ## Lemmas on what is seen of a row -/

theorem withVisible_withVisible (v v' : Bool) (l : Option QLabel) :
    withVisible v (withVisible v' l) = withVisible v l := by
  cases l <;> rfl

theorem withText_withText (a b : String) (l : Option QLabel) :
    withText a (withText b l) = withText a l := by
  cases l <;> rfl

theorem withText_withVisible (a : String) (v : Bool) (l : Option QLabel) :
    withText a (withVisible v l) = withVisible v (withText a l) := by
  cases l <;> rfl

theorem rowUpdated_idem {σ : Type} (f : σ → String) (t : ArchiverTypes)
    (s : List (Status σ)) (j : Nat) (r : Rows) :
    rowUpdated f t s j (rowUpdated f t s j r) = rowUpdated f t s j r := by
  unfold rowUpdated
  by_cases ht : t = ArchiverTypes.CA <;> split <;>
    simp [rowShown, rowFilled, ht, withVisible_withVisible, withText_withText,
      withText_withVisible]

theorem rowShown_isVisible (t : ArchiverTypes) (v : Bool) (r : Rows) (h : RowWF t r) :
    (rowShown t v r).isVisible = v ∧ (rowShown t v r).isHidden = !v := by
  obtain ⟨a, b, c, d, e, f, g⟩ := r
  obtain ⟨h1, h2, h3, h4, h5, h6, h7⟩ := h
  simp only at h1 h2 h3 h4 h5 h6 h7
  obtain ⟨a, rfl⟩ := Option.isSome_iff_exists.1 h1
  obtain ⟨b, rfl⟩ := Option.isSome_iff_exists.1 h2
  obtain ⟨c, rfl⟩ := Option.isSome_iff_exists.1 h3
  obtain ⟨f, rfl⟩ := Option.isSome_iff_exists.1 h4
  by_cases ht : t = ArchiverTypes.CA
  · obtain ⟨d, rfl⟩ := Option.isSome_iff_exists.1 (h5.2 ht)
    obtain ⟨e, rfl⟩ := Option.isSome_iff_exists.1 (h6.2 ht)
    obtain ⟨g, rfl⟩ := Option.isSome_iff_exists.1 (h7.2 ht)
    cases v <;>
      simp [rowShown, withVisible, ht, Rows.isVisible, Rows.isHidden, Rows.present,
        Rows.labels, List.reduceOption]
  · have hd : d = none := by
      cases d with
      | none => rfl
      | some x => exact absurd (h5.1 rfl) ht
    have he : e = none := by
      cases e with
      | none => rfl
      | some x => exact absurd (h6.1 rfl) ht
    have hg : g = none := by
      cases g with
      | none => rfl
      | some x => exact absurd (h7.1 rfl) ht
    subst hd he hg
    cases v <;>
      simp [rowShown, withVisible, ht, Rows.isVisible, Rows.isHidden, Rows.present,
        Rows.labels, List.reduceOption]

theorem withVisible_text (v : Bool) (l : Option QLabel) :
    (withVisible v l).map QLabel.text = l.map QLabel.text := by
  cases l <;> rfl

theorem rowShown_texts (t : ArchiverTypes) (v : Bool) (r : Rows) :
    (rowShown t v r).texts = r.texts := by
  by_cases ht : t = ArchiverTypes.CA <;>
    simp [rowShown, Rows.texts, Rows.labels, ht, withVisible_text]

theorem rowUpdated_isVisible {σ : Type} (f : σ → String) (t : ArchiverTypes)
    (s : List (Status σ)) (j : Nat) (r : Rows) (h : RowWF t r) :
    (rowUpdated f t s j r).isVisible = decide (j < s.length) ∧
      (rowUpdated f t s j r).isHidden = decide (s.length ≤ j) := by
  unfold rowUpdated
  split
  · rename_i hj
    have := rowShown_isVisible t true _ (rowFilled_wf f t t s[j] r h)
    simp [this, hj]
  · rename_i hj
    have := rowShown_isVisible t false r h
    simp [this, hj]
    omega

/-- Counting the visible rows among the first `n` of an array in which row
`i` is visible exactly when `i < L`. -/
theorem count_visible (l : List Rows) (L n : Nat) (hn : n ≤ l.length)
    (h : ∀ i r, i < n → l[i]? = some r → r.isVisible = decide (i < L)) :
    ((l.take n).filter Rows.isVisible).length = min L n := by
  induction n with
  | zero => simp
  | succ n ih =>
    have hlt : n < l.length := hn
    have ih1 := ih (Nat.le_of_succ_le hn) (fun i r hi hr => h i r (Nat.lt_succ_of_lt hi) hr)
    have hv := h n l[n] (Nat.lt_succ_self n) (List.getElem?_eq_getElem hlt)
    rw [List.take_succ, List.filter_append, List.length_append, ih1,
      List.getElem?_eq_getElem hlt]
    by_cases hL : n < L
    · simp [hL] at hv
      simp [List.filter, hv]
      omega
    · simp [hL] at hv
      simp [List.filter, hv]
      omega

theorem wrapInt_of_range (x : Int) (h1 : -2147483648 ≤ x) (h2 : x < 2147483648) :
    wrapInt x = x := by
  unfold wrapInt
  omega

theorem rowUpdated_congr {σ : Type} (f : σ → String) (t : ArchiverTypes)
    (s s2 : List (Status σ)) (i : Nat) (r : Rows) (h : s2[i]? = s[i]?) :
    rowUpdated f t s2 i r = rowUpdated f t s i r := by
  unfold rowUpdated
  by_cases hi : i < s.length
  · have hi2 : i < s2.length := by
      rw [List.getElem?_eq_getElem hi] at h
      rcases List.getElem?_eq_some_iff.1 h with ⟨hj, _⟩
      exact hj
    have he : s2[i] = s[i] := by
      rw [List.getElem?_eq_getElem hi, List.getElem?_eq_getElem hi2] at h
      exact Option.some.inj h
    simp [hi, hi2, he]
  · have hi2 : ¬ i < s2.length := by
      intro hlt
      rw [List.getElem?_eq_getElem hlt, List.getElem?_eq_none (Nat.le_of_not_lt hi)] at h
      cases h
    simp [hi, hi2]

theorem rowsUpdated_congr {σ : Type} (f : σ → String) (t : ArchiverTypes)
    (s s2 : List (Status σ)) (n : Nat) (rows : List Rows) (h : s2.take n = s.take n) :
    rowsUpdated f t s2 n rows = rowsUpdated f t s n rows := by
  apply List.ext_getElem?
  intro i
  rw [getElem?_rowsUpdated, getElem?_rowsUpdated]
  by_cases hi : i < n
  · have he : s2[i]? = s[i]? := by
      rw [← List.getElem?_take_of_lt hi, h, List.getElem?_take_of_lt hi]
    simp [hi, rowUpdated_congr f t s s2 i _ he]
  · simp [hi]

theorem rowsUpdated_set_header {σ : Type} (f : σ → String) (t : ArchiverTypes)
    (s : List (Status σ)) (n : Nat) (rows : List Rows) (hdr : Rows) :
    rowsUpdated f t s n (rows.set n hdr) = (rowsUpdated f t s n rows).set n hdr := by
  apply List.ext_getElem?
  intro i
  rw [getElem?_rowsUpdated, List.getElem?_set, List.getElem?_set, getElem?_rowsUpdated,
    length_rowsUpdated]
  by_cases hi : n = i
  · subst hi
    by_cases hl : n < rows.length <;> simp [hl]
  · simp [hi]

theorem visibleRows_updated {σ : Type} (f : σ → String) (n : Nat) (t : ArchiverTypes)
    (s : List (Status σ)) (p q : Panel) (hp : WF n t p)
    (hq : q.rowList = rowsUpdated f t s n p.rowList) :
    visibleRows n q = min s.length n := by
  unfold visibleRows
  rw [hq]
  apply count_visible
  · simp only [length_rowsUpdated, hp.1]
    omega
  · intro i r hi hr
    obtain ⟨x, hx, hxw⟩ := hp.wf_data i hi
    simp only [getElem?_rowsUpdated, hx, Option.map_some', hi, if_true,
      Option.some.injEq] at hr
    subst hr
    exact (rowUpdated_isVisible f t s i x hxw).1

/-! ## The claims -/

/-- C1: on a panel built for the archiver kind in force, after `archiveStatus` on a
list of length `L`, data row `j < NumberRows` is visible exactly when `j < L` and
hidden exactly when `L ≤ j`, so `min L NumberRows` data rows are visible; the array
keeps its `NumberRows + 1` slots, the slot at index `NumberRows` is neither written
nor read (any other content of it comes out untouched, with the same data rows),
and status entries from index `NumberRows` on are not read (lists of equal length
that agree below `NumberRows` give the same panel). -/
theorem archiveStatus_rows_visible {σ : Type} (f : σ → String) (n : Nat) (t : ArchiverTypes)
    (s : List (Status σ)) (p : Panel) (hp : WF n t p) :
    ∃ q, archiveStatus f n t s p = Except.ok q ∧
      (∀ j, j < n → ∃ r, q.rowList[j]? = some r ∧
        (r.isVisible = true ↔ j < s.length) ∧ (r.isHidden = true ↔ s.length ≤ j)) ∧
      visibleRows n q = min s.length n ∧
      q.rowList.length = n + 1 ∧
      q.rowList[n]? = p.rowList[n]? ∧
      (∀ hdr : Rows, archiveStatus f n t s { p with rowList := p.rowList.set n hdr } =
        Except.ok { q with rowList := q.rowList.set n hdr }) ∧
      (∀ s2 : List (Status σ), s2.length = s.length → s2.take n = s.take n →
        archiveStatus f n t s2 p = Except.ok q) := by
  refine ⟨_, archiveStatus_eq f n t s p hp.usable.ok_data, ?_, ?_, ?_, ?_, ?_, ?_⟩
  · intro j hj
    obtain ⟨r, hr, hrw⟩ := hp.wf_data j hj
    refine ⟨rowUpdated f t s j r, by simp [getElem?_rowsUpdated, hr, hj], ?_⟩
    have hv := rowUpdated_isVisible f t s j r hrw
    simp [hv.1, hv.2]
  · exact visibleRows_updated f n t s p _ hp rfl
  · simp only [length_rowsUpdated, hp.1]
  · simp [getElem?_rowsUpdated]
  · intro hdr
    rw [archiveStatus_eq f n t s _ (by
      intro i hi
      obtain ⟨r, hr, hrw⟩ := hp.wf_data i hi
      exact ⟨r, by simp [List.getElem?_set, Nat.ne_of_gt hi, hr], hrw.ok⟩)]
    simp [rowsUpdated_set_header]
  · intro s2 hlen htake
    rw [archiveStatus_eq f n t s2 p hp.usable.ok_data, hlen, rowsUpdated_congr f t s s2 n _ htake]

/-- The statement of C1 on a fresh two-row panel and the one-entry list of the example. -/
theorem archiveStatus_rows_visible_witness :
    WF 2 ArchiverTypes.CA (examplePanel ArchiverTypes.CA) ∧
    ∃ q, archiveStatus stateName 2 ArchiverTypes.CA [exampleStatus]
        (examplePanel ArchiverTypes.CA) = Except.ok q ∧
      (∀ j, j < 2 → ∃ r, q.rowList[j]? = some r ∧
        (r.isVisible = true ↔ j < [exampleStatus].length) ∧
        (r.isHidden = true ↔ [exampleStatus].length ≤ j)) ∧
      visibleRows 2 q = min [exampleStatus].length 2 ∧
      q.rowList.length = 2 + 1 ∧
      q.rowList[2]? = (examplePanel ArchiverTypes.CA).rowList[2]? ∧
      (∀ hdr : Rows, archiveStatus stateName 2 ArchiverTypes.CA [exampleStatus]
          { examplePanel ArchiverTypes.CA with
            rowList := (examplePanel ArchiverTypes.CA).rowList.set 2 hdr } =
        Except.ok { q with rowList := q.rowList.set 2 hdr }) ∧
      (∀ s2 : List (Status States), s2.length = [exampleStatus].length →
        s2.take 2 = [exampleStatus].take 2 →
        archiveStatus stateName 2 ArchiverTypes.CA s2 (examplePanel ArchiverTypes.CA) =
          Except.ok q) :=
  ⟨by decide, archiveStatus_rows_visible stateName 2 ArchiverTypes.CA [exampleStatus]
    (examplePanel ArchiverTypes.CA) (by decide)⟩

/-- C2, counterexample: on a fresh two-row panel `setStatusRowVisible (2, false)`,
whose index equals `NumberRows`, hides the header row, which was shown; the call
is not a no-op. -/
theorem setStatusRowVisible_header_counterexample :
    ∃ p q hdr hdr', construct 2 ArchiverTypes.CA = Except.ok p ∧
      setStatusRowVisible ArchiverTypes.CA 2 false p = Except.ok q ∧
      p.rowList[2]? = some hdr ∧ q.rowList[2]? = some hdr' ∧
      hdr.isVisible = true ∧ hdr'.isVisible = false ∧ q ≠ p :=
  ⟨_, _, _, _, rfl, rfl, rfl, rfl, by decide, by decide, by decide⟩

/-- C2, amended: on a panel whose array has `NumberRows + 1` slots, for every index
`j` that is negative or larger than `NumberRows`, `setStatusRowVisible (j, v)`
returns the panel as it was, whatever `v` and the archiver kind are; for
`j = NumberRows`, on a panel built for the archiver kind in force, the call sets
the visibility of the header row to `v` and leaves the header texts and every
data row as they were. -/
theorem setStatusRowVisible_out_of_range (n : Nat) (t : ArchiverTypes) (j : Int) (v : Bool)
    (p : Panel) :
    (p.rowList.length = n + 1 → j < 0 ∨ (n : Int) < j →
      setStatusRowVisible t j v p = Except.ok p) ∧
    (WF n t p → j = (n : Int) →
      ∃ q hdr hdr', setStatusRowVisible t j v p = Except.ok q ∧
        p.rowList[n]? = some hdr ∧ q.rowList[n]? = some hdr' ∧
        hdr'.isVisible = v ∧ hdr'.isHidden = !v ∧ hdr'.texts = hdr.texts ∧
        ∀ i, i < n → q.rowList[i]? = p.rowList[i]?) := by
  constructor
  · intro hlen hj
    apply setStatusRowVisible_outside
    rw [hlen]
    omega
  · intro hp hj
    subst hj
    obtain ⟨hdr, hr, hrw⟩ := hp.wf_slot n (Nat.lt_succ_self n)
    have hlt : n < p.rowList.length := by rw [hp.1]; exact Nat.lt_succ_self n
    have hv := rowShown_isVisible t v hdr hrw
    refine ⟨_, hdr, rowShown t v hdr, setStatusRowVisible_inside t n v p hdr hr hrw.ok, hr,
      by simp [hlt], hv.1, hv.2, rowShown_texts t v hdr, ?_⟩
    intro i hi
    simp [List.getElem?_set, Nat.ne_of_gt hi]

/-- The amended C2 on a fresh two-row panel, at the indices 3 and 2. -/
theorem setStatusRowVisible_out_of_range_witness :
    ((examplePanel ArchiverTypes.CA).rowList.length = 2 + 1 ∧
      ((3 : Int) < 0 ∨ ((2 : Nat) : Int) < 3) ∧
      setStatusRowVisible ArchiverTypes.CA 3 true (examplePanel ArchiverTypes.CA) =
        Except.ok (examplePanel ArchiverTypes.CA)) ∧
    (WF 2 ArchiverTypes.CA (examplePanel ArchiverTypes.CA) ∧ (2 : Int) = ((2 : Nat) : Int) ∧
      ∃ q hdr hdr', setStatusRowVisible ArchiverTypes.CA 2 false
          (examplePanel ArchiverTypes.CA) = Except.ok q ∧
        (examplePanel ArchiverTypes.CA).rowList[2]? = some hdr ∧ q.rowList[2]? = some hdr' ∧
        hdr'.isVisible = false ∧ hdr'.isHidden = !false ∧ hdr'.texts = hdr.texts ∧
        ∀ i, i < 2 → q.rowList[i]? = (examplePanel ArchiverTypes.CA).rowList[i]?) :=
  ⟨⟨by decide, by decide,
      (setStatusRowVisible_out_of_range 2 ArchiverTypes.CA 3 true
        (examplePanel ArchiverTypes.CA)).1 (by decide) (by decide)⟩,
    ⟨by decide, by decide,
      (setStatusRowVisible_out_of_range 2 ArchiverTypes.CA 2 false
        (examplePanel ArchiverTypes.CA)).2 (by decide) (by decide)⟩⟩

/-- The minimum height set for a list of 107374181 entries. -/
theorem archiveStatus_height_overflow {σ : Type} (f : σ → String) (n : Nat)
    (t : ArchiverTypes) (s : List (Status σ)) (p : Panel) (hp : Usable n t p)
    (hs : s.length = 107374181) :
    ∃ q, archiveStatus f n t s p = Except.ok q ∧
      q.inUseCount = 107374181 ∧ q.minimumHeight = -2147483632 ∧
      q.minimumHeight ≠ 20 * (107374181 + 1) + 24 := by
  refine ⟨_, archiveStatus_eq f n t s p hp.ok_data, ?_, ?_, ?_⟩
  · simp [hs]
  · simp only [hs]
    decide
  · simp only [hs]
    decide

/-- C3, counterexample: for a list of 107374181 entries the value `20*(L+1)+24` is
2147483664, which no 32 bit `int` holds; the minimum height that is set differs. -/
theorem archiveStatus_height_counterexample :
    ∃ q, archiveStatus stateName 2 ArchiverTypes.CA (List.replicate 107374181 exampleStatus)
        (examplePanel ArchiverTypes.CA) = Except.ok q ∧
      q.inUseCount = 107374181 ∧
      q.minimumHeight ≠ 20 * (107374181 + 1) + 24 := by
  obtain ⟨q, h1, h2, _, h4⟩ := archiveStatus_height_overflow stateName 2 ArchiverTypes.CA
    (List.replicate 107374181 exampleStatus) (examplePanel ArchiverTypes.CA) (by decide)
    (List.length_replicate _ _)
  exact ⟨q, h1, h2, h4⟩

/-- C3, amended: on a panel on which the member functions can work, after
`archiveStatus` on a list of length `L` the in-use count is `L`, and when
`L ≤ 107374180` (so that `20*(L+1)+24` fits a 32 bit `int`) the minimum height
is exactly `20*(L+1)+24`. -/
theorem archiveStatus_height {σ : Type} (f : σ → String) (n : Nat) (t : ArchiverTypes)
    (s : List (Status σ)) (p : Panel) (hp : Usable n t p) :
    ∃ q, archiveStatus f n t s p = Except.ok q ∧
      q.inUseCount = (s.length : Int) ∧
      (s.length ≤ 107374180 → q.minimumHeight = 20 * ((s.length : Int) + 1) + 24) := by
  refine ⟨_, archiveStatus_eq f n t s p hp.ok_data, rfl, ?_⟩
  intro hL
  show wrapInt (wrapInt (20 * wrapInt ((s.length : Int) + 1)) + 24) = _
  rw [wrapInt_of_range ((s.length : Int) + 1) (by omega) (by omega),
    wrapInt_of_range (20 * ((s.length : Int) + 1)) (by omega) (by omega),
    wrapInt_of_range (20 * ((s.length : Int) + 1) + 24) (by omega) (by omega)]

/-- The amended C3 on the one-entry list of the example: the height is 64. -/
theorem archiveStatus_height_witness :
    Usable 2 ArchiverTypes.CA (examplePanel ArchiverTypes.CA) ∧
    ∃ q, archiveStatus stateName 2 ArchiverTypes.CA [exampleStatus]
        (examplePanel ArchiverTypes.CA) = Except.ok q ∧
      q.inUseCount = 1 ∧ q.minimumHeight = 64 := by
  refine ⟨by decide, ?_⟩
  obtain ⟨q, hq, hc, hh⟩ := archiveStatus_height stateName 2 ArchiverTypes.CA [exampleStatus]
    (examplePanel ArchiverTypes.CA) (by decide)
  exact ⟨q, hq, by simpa using hc, by simpa using hh (by decide)⟩

/-- C5: on a panel on which the member functions can work, delivering the same
status list a second time gives back the very panel the first delivery produced
(texts, visibility, in-use count, minimum height), the archiver kind being the
same at both deliveries. -/
theorem archiveStatus_idempotent {σ : Type} (f : σ → String) (n : Nat) (t : ArchiverTypes)
    (s : List (Status σ)) (p : Panel) (hp : Usable n t p) :
    ∃ q, archiveStatus f n t s p = Except.ok q ∧ archiveStatus f n t s q = Except.ok q := by
  have h1 := archiveStatus_eq f n t s p hp.ok_data
  have hq : ∀ i, i < n → ∃ r, (rowsUpdated f t s n p.rowList)[i]? = some r ∧ RowOK t r := by
    intro i hi
    obtain ⟨r, hr, hrw⟩ := hp.ok_data i hi
    exact ⟨rowUpdated f t s i r, by simp [getElem?_rowsUpdated, hr, hi],
      rowUpdated_ok f t s i r hrw⟩
  refine ⟨_, h1, ?_⟩
  rw [archiveStatus_eq f n t s _ hq]
  congr 2
  apply List.ext_getElem?
  intro i
  simp only [getElem?_rowsUpdated, Option.map_map]
  cases p.rowList[i]? with
  | none => rfl
  | some x =>
    by_cases hi : i < n <;> simp [hi, rowUpdated_idem]

/-- C5 on a fresh two-row panel and the one-entry list of the example. -/
theorem archiveStatus_idempotent_witness :
    Usable 2 ArchiverTypes.ARCHAPPL (examplePanel ArchiverTypes.CA) ∧
    ∃ q, archiveStatus stateName 2 ArchiverTypes.ARCHAPPL [exampleStatus]
        (examplePanel ArchiverTypes.CA) = Except.ok q ∧
      archiveStatus stateName 2 ArchiverTypes.ARCHAPPL [exampleStatus] q = Except.ok q :=
  ⟨by decide, archiveStatus_idempotent stateName 2 ArchiverTypes.ARCHAPPL [exampleStatus]
    (examplePanel ArchiverTypes.CA) (by decide)⟩

/-- C8: on a panel built for the archiver kind in force, for a list of length `L`
and a row index `j` with `L ≤ j < NumberRows`, `archiveStatus` leaves row `j`
hidden with the text of each of its labels as before, and the header slot is the
same after as before. -/
theorem archiveStatus_stale_rows {σ : Type} (f : σ → String) (n : Nat) (t : ArchiverTypes)
    (s : List (Status σ)) (p : Panel) (j : Nat) (hp : WF n t p)
    (hL : s.length ≤ j) (hj : j < n) :
    ∃ q r r', archiveStatus f n t s p = Except.ok q ∧
      p.rowList[j]? = some r ∧ q.rowList[j]? = some r' ∧
      r'.isHidden = true ∧ r'.isVisible = false ∧ r'.texts = r.texts ∧
      q.rowList[n]? = p.rowList[n]? := by
  obtain ⟨r, hr, hrw⟩ := hp.wf_data j hj
  have hv := rowShown_isVisible t false r hrw
  have hu : rowUpdated f t s j r = rowShown t false r := by
    unfold rowUpdated
    rw [dif_neg (by omega)]
  refine ⟨_, r, rowShown t false r, archiveStatus_eq f n t s p hp.usable.ok_data, hr, ?_, ?_, ?_, ?_, ?_⟩
  · simp [getElem?_rowsUpdated, hr, hj, hu]
  · simpa using hv.2
  · simpa using hv.1
  · exact rowShown_texts t false r
  · simp [getElem?_rowsUpdated]

/-- C8 on a fresh two-row panel: the empty list hides row 1 and keeps its texts. -/
theorem archiveStatus_stale_rows_witness :
    WF 2 ArchiverTypes.CA (examplePanel ArchiverTypes.CA) ∧
    ([] : List (Status States)).length ≤ 1 ∧ 1 < 2 ∧
    ∃ q r r', archiveStatus stateName 2 ArchiverTypes.CA [] (examplePanel ArchiverTypes.CA) =
        Except.ok q ∧
      (examplePanel ArchiverTypes.CA).rowList[1]? = some r ∧ q.rowList[1]? = some r' ∧
      r'.isHidden = true ∧ r'.isVisible = false ∧ r'.texts = r.texts ∧
      q.rowList[2]? = (examplePanel ArchiverTypes.CA).rowList[2]? :=
  ⟨by decide, by decide, by decide,
    archiveStatus_stale_rows stateName 2 ArchiverTypes.CA [] (examplePanel ArchiverTypes.CA) 1
      (by decide) (by decide) (by decide)⟩

theorem dataRow_texts (t : ArchiverTypes) (j : Nat) :
    ∀ w ∈ (dataRow t j).present, w.text = " - " := by
  cases t <;>
    simp [dataRow, rowShown, createRow, newLabel, withVisible, Rows.present, Rows.labels,
      List.reduceOption]

/-- C9: right after construction, with at least two data rows, rows 0 and 1 are
visible, every other data row is hidden, every label of a data row holds the text
" - ", the minimum height is `20*(2+1)+24 = 84`, the height of `sizeHint`, and the
in-use count is 0. -/
theorem construct_initial_state (n : Nat) (t : ArchiverTypes) (hn : 2 ≤ n) :
    ∃ p, construct n t = Except.ok p ∧
      (∀ j, j < 2 → ∃ r, p.rowList[j]? = some r ∧ r.isVisible = true ∧ r.isHidden = false) ∧
      (∀ j, 2 ≤ j → j < n →
        ∃ r, p.rowList[j]? = some r ∧ r.isHidden = true ∧ r.isVisible = false) ∧
      (∀ j, j < n → ∃ r, p.rowList[j]? = some r ∧ ∀ w ∈ r.present, w.text = " - ") ∧
      p.minimumHeight = 20 * (2 + 1) + 24 ∧ p.minimumHeight = 84 ∧
      p.minimumHeight = sizeHint.2 ∧ p.inUseCount = 0 := by
  refine ⟨_, construct_eq n t, ?_, ?_, ?_, rfl, rfl, rfl, rfl⟩
  · intro j hj
    have hv := rowShown_isVisible t (decide (j < 2))
      (createRow t " - " " - " " - " " - " " - " " - " " - ") (createRow_wf _ _ _ _ _ _ _ _)
    refine ⟨dataRow t j, initialRows_data n t j (by omega), ?_, ?_⟩
    · simpa [dataRow, hj] using hv.1
    · simpa [dataRow, hj] using hv.2
  · intro j hj2 hjn
    have hv := rowShown_isVisible t (decide (j < 2))
      (createRow t " - " " - " " - " " - " " - " " - " " - ") (createRow_wf _ _ _ _ _ _ _ _)
    have hnot : ¬ j < 2 := by omega
    refine ⟨dataRow t j, initialRows_data n t j hjn, ?_, ?_⟩
    · simpa [dataRow, hnot] using hv.2
    · simpa [dataRow, hnot] using hv.1
  · intro j hj
    exact ⟨dataRow t j, initialRows_data n t j hj, dataRow_texts t j⟩

/-- C9 for a panel with three data rows of the appliance kind. -/
theorem construct_initial_state_witness :
    2 ≤ 3 ∧
    ∃ p, construct 3 ArchiverTypes.ARCHAPPL = Except.ok p ∧
      (∀ j, j < 2 → ∃ r, p.rowList[j]? = some r ∧ r.isVisible = true ∧ r.isHidden = false) ∧
      (∀ j, 2 ≤ j → j < 3 →
        ∃ r, p.rowList[j]? = some r ∧ r.isHidden = true ∧ r.isVisible = false) ∧
      (∀ j, j < 3 → ∃ r, p.rowList[j]? = some r ∧ ∀ w ∈ r.present, w.text = " - ") ∧
      p.minimumHeight = 20 * (2 + 1) + 24 ∧ p.minimumHeight = 84 ∧
      p.minimumHeight = sizeHint.2 ∧ p.inUseCount = 0 :=
  ⟨by decide, construct_initial_state 3 ArchiverTypes.ARCHAPPL (by decide)⟩

theorem Delivered.delivered_wf {σ : Type} {f : σ → String} {n : Nat} {t : ArchiverTypes} {p : Panel}
    (h : Delivered f n t p) : WF n t p := by
  induction h with
  | init h0 => exact construct_wf n t _ h0
  | deliver s _ h1 ih => exact archiveStatus_wf f n t s _ _ ih h1

theorem Reachable.reachable_wf {σ : Type} {f : σ → String} {n : Nat} {t : ArchiverTypes} {p : Panel}
    (h : Reachable f n t p) : WF n t p := by
  induction h with
  | init h0 => exact construct_wf n t _ h0
  | deliver s _ h1 ih => exact archiveStatus_wf f n t s _ _ ih h1
  | rowVisible j v _ h1 ih =>
    obtain ⟨q, hq, hw⟩ := setStatusRowVisible_wf n t j v _ ih
    rw [hq] at h1
    cases h1
    exact hw

/-- C7, counterexample: the panel with three data rows as constructed, before any
delivery, shows two data rows while its in-use count is 0. -/
theorem visibleRows_initial_counterexample :
    ∃ p, Delivered stateName 3 ArchiverTypes.CA p ∧
      visibleRows 3 p = 2 ∧ p.inUseCount = 0 ∧
      (visibleRows 3 p : Int) ≠ min p.inUseCount ((3 : Nat) : Int) :=
  ⟨_, Delivered.init rfl, by decide, by decide, by decide⟩

/-- C7, amended: in every state reached from construction by one or more status
deliveries, that is after a delivery in any state so reached, the number of
visible data rows is the minimum of the in-use count and `NumberRows`. -/
theorem visibleRows_after_delivery {σ : Type} (f : σ → String) (n : Nat) (t : ArchiverTypes)
    (p : Panel) (s : List (Status σ)) (h : Delivered f n t p) :
    ∃ q, archiveStatus f n t s p = Except.ok q ∧ Delivered f n t q ∧
      (visibleRows n q : Int) = min q.inUseCount (n : Int) := by
  have hq := archiveStatus_eq f n t s p h.delivered_wf.usable.ok_data
  refine ⟨_, hq, Delivered.deliver s h hq, ?_⟩
  rw [visibleRows_updated f n t s p _ h.delivered_wf rfl]
  show ((min s.length n : Nat) : Int) = min (s.length : Int) (n : Int)
  omega

/-- The amended C7 for the delivery of the example list to a fresh two-row panel. -/
theorem visibleRows_after_delivery_witness :
    Delivered stateName 2 ArchiverTypes.CA (examplePanel ArchiverTypes.CA) ∧
    ∃ q, archiveStatus stateName 2 ArchiverTypes.CA [exampleStatus]
        (examplePanel ArchiverTypes.CA) = Except.ok q ∧
      Delivered stateName 2 ArchiverTypes.CA q ∧
      (visibleRows 2 q : Int) = min q.inUseCount ((2 : Nat) : Int) :=
  ⟨Delivered.init rfl,
    visibleRows_after_delivery stateName 2 ArchiverTypes.CA (examplePanel ArchiverTypes.CA)
      [exampleStatus] (Delivered.init rfl)⟩

theorem RowWF.no_counts {t : ArchiverTypes} {r : Rows} (h : RowWF t r)
    (ht : t ≠ ArchiverTypes.CA) : r.available = none ∧ r.read = none ∧ r.pending = none := by
  obtain ⟨_, _, _, _, h5, h6, h7⟩ := h
  refine ⟨?_, ?_, ?_⟩
  · cases hx : r.available with
    | none => rfl
    | some x => exact absurd (h5.1 (by simp [hx])) ht
  · cases hx : r.read with
    | none => rfl
    | some x => exact absurd (h6.1 (by simp [hx])) ht
  · cases hx : r.pending with
    | none => rfl
    | some x => exact absurd (h7.1 (by simp [hx])) ht

theorem RowWF.all_labels {r : Rows} (h : RowWF ArchiverTypes.CA r) :
    ∀ l ∈ r.labels, l.isSome = true := by
  obtain ⟨h1, h2, h3, h4, h5, h6, h7⟩ := h
  intro l hl
  simp only [Rows.labels, List.mem_cons, List.mem_singleton, List.not_mem_nil, or_false] at hl
  rcases hl with rfl | rfl | rfl | rfl | rfl | rfl | rfl
  · exact h1
  · exact h2
  · exact h3
  · exact h5.2 rfl
  · exact h6.2 rfl
  · exact h4
  · exact h7.2 rfl

/-- C6: with the archiver kind `Error` at construction and at every call, in every
state reached from construction by status deliveries and `setStatusRowVisible`
calls the array has `NumberRows + 1` slots, and in each of them, header included,
the available, read and pending labels do not exist and so show nothing. -/
theorem error_kind_shows_no_counts {σ : Type} (f : σ → String) (n : Nat) (p : Panel)
    (h : Reachable f n ArchiverTypes.Error p) :
    p.rowList.length = n + 1 ∧
    ∀ i, i ≤ n → ∃ r, p.rowList[i]? = some r ∧
      r.available = none ∧ r.read = none ∧ r.pending = none ∧
      shown r.available = false ∧ shown r.read = false ∧ shown r.pending = false := by
  refine ⟨h.reachable_wf.1, ?_⟩
  intro i hi
  obtain ⟨r, hr, hrw⟩ := h.reachable_wf.wf_slot i (Nat.lt_succ_of_le hi)
  obtain ⟨ha, hb, hc⟩ := hrw.no_counts (by decide)
  exact ⟨r, hr, ha, hb, hc, by rw [ha]; rfl, by rw [hb]; rfl, by rw [hc]; rfl⟩

/-- C6 for a two-row panel after a delivery and a `setStatusRowVisible` call. -/
theorem error_kind_shows_no_counts_witness :
    Reachable stateName 2 ArchiverTypes.Error (exampleToggled ArchiverTypes.Error) ∧
    (exampleToggled ArchiverTypes.Error).rowList.length = 2 + 1 ∧
    ∀ i, i ≤ 2 → ∃ r, (exampleToggled ArchiverTypes.Error).rowList[i]? = some r ∧
      r.available = none ∧ r.read = none ∧ r.pending = none ∧
      shown r.available = false ∧ shown r.read = false ∧ shown r.pending = false :=
  ⟨Reachable.rowVisible 1 true (Reachable.deliver [exampleStatus] (Reachable.init rfl) rfl) rfl,
    error_kind_shows_no_counts stateName 2 (exampleToggled ArchiverTypes.Error)
      (Reachable.rowVisible (p := exampleDelivered ArchiverTypes.Error) 1 true
        (Reachable.deliver (p := examplePanel ArchiverTypes.Error) [exampleStatus]
          (Reachable.init rfl) rfl) rfl)⟩

/-- C10: while the archiver kind stays what it was at construction, in every state
reached by status deliveries and `setStatusRowVisible` calls, every further
`setStatusRowVisible (j, v)` and every further delivery returns a panel, so no
absent label is touched; for `CA` all seven labels of every slot `0 .. NumberRows`
exist, for the other kinds the available, read and pending labels are absent. -/
theorem no_null_label_access {σ : Type} (f : σ → String) (n : Nat) (t : ArchiverTypes)
    (p : Panel) (h : Reachable f n t p) :
    (∀ (j : Int) (v : Bool), ∃ q, setStatusRowVisible t j v p = Except.ok q) ∧
    (∀ s : List (Status σ), ∃ q, archiveStatus f n t s p = Except.ok q) ∧
    (∀ i, i ≤ n → ∃ r, p.rowList[i]? = some r ∧
      (t = ArchiverTypes.CA → ∀ l ∈ r.labels, l.isSome = true) ∧
      (t ≠ ArchiverTypes.CA → r.available = none ∧ r.read = none ∧ r.pending = none ∧
        r.hostNamePort.isSome = true ∧ r.endPoint.isSome = true ∧ r.state.isSome = true ∧
        r.numberPVs.isSome = true)) := by
  refine ⟨?_, ?_, ?_⟩
  · intro j v
    obtain ⟨q, hq, _⟩ := setStatusRowVisible_wf n t j v p h.reachable_wf
    exact ⟨q, hq⟩
  · intro s
    exact ⟨_, archiveStatus_eq f n t s p h.reachable_wf.usable.ok_data⟩
  · intro i hi
    obtain ⟨r, hr, hrw⟩ := h.reachable_wf.wf_slot i (Nat.lt_succ_of_le hi)
    refine ⟨r, hr, ?_, ?_⟩
    · intro ht
      subst ht
      exact hrw.all_labels
    · intro ht
      obtain ⟨ha, hb, hc⟩ := hrw.no_counts ht
      exact ⟨ha, hb, hc, hrw.1, hrw.2.1, hrw.2.2.1, hrw.2.2.2.1⟩

/-- C10 for a two-row appliance panel after a delivery and a `setStatusRowVisible` call. -/
theorem no_null_label_access_witness :
    Reachable stateName 2 ArchiverTypes.ARCHAPPL (exampleToggled ArchiverTypes.ARCHAPPL) ∧
    (∀ (j : Int) (v : Bool), ∃ q, setStatusRowVisible ArchiverTypes.ARCHAPPL j v
      (exampleToggled ArchiverTypes.ARCHAPPL) = Except.ok q) ∧
    (∀ s : List (Status States), ∃ q, archiveStatus stateName 2 ArchiverTypes.ARCHAPPL s
      (exampleToggled ArchiverTypes.ARCHAPPL) = Except.ok q) ∧
    (∀ i, i ≤ 2 → ∃ r, (exampleToggled ArchiverTypes.ARCHAPPL).rowList[i]? = some r ∧
      (ArchiverTypes.ARCHAPPL = ArchiverTypes.CA → ∀ l ∈ r.labels, l.isSome = true) ∧
      (ArchiverTypes.ARCHAPPL ≠ ArchiverTypes.CA →
        r.available = none ∧ r.read = none ∧ r.pending = none ∧
        r.hostNamePort.isSome = true ∧ r.endPoint.isSome = true ∧ r.state.isSome = true ∧
        r.numberPVs.isSome = true)) :=
  have hr : Reachable stateName 2 ArchiverTypes.ARCHAPPL
      (exampleToggled ArchiverTypes.ARCHAPPL) :=
    Reachable.rowVisible (p := exampleDelivered ArchiverTypes.ARCHAPPL) 1 true
      (Reachable.deliver (p := examplePanel ArchiverTypes.ARCHAPPL) [exampleStatus]
        (Reachable.init rfl) rfl) rfl
  ⟨hr, no_null_label_access stateName 2 ArchiverTypes.ARCHAPPL _ hr⟩

/-- When the archiver kind is not `CA` at construction and `CA` at a later call,
that call goes through a `NULL` label. -/
theorem archiver_kind_change_faults :
    ∃ p, construct 2 ArchiverTypes.ARCHAPPL = Except.ok p ∧
      setStatusRowVisible ArchiverTypes.CA 0 true p = Except.error Fault.nullPointer ∧
      archiveStatus stateName 2 ArchiverTypes.CA [exampleStatus] p =
        Except.error Fault.nullPointer :=
  ⟨_, rfl, rfl, rfl⟩

theorem withText_text (a : String) (l : Option QLabel) (h : l.isSome = true) :
    (withText a l).map QLabel.text = some a := by
  cases l with
  | none => cases h
  | some w => rfl

/-- The texts of a populated row: what `archiveStatus` writes into row `j` for the
entry `statusList[j]`.  The host and port text is the chained `arg` value; it is
the host name, a colon, the port and a space when the host name has no percent
sign. -/
theorem archiveStatus_texts {σ : Type} (f : σ → String) (n : Nat) (t : ArchiverTypes)
    (s : List (Status σ)) (p : Panel) (j : Nat) (hp : Usable n t p)
    (hj : j < s.length) (hjn : j < n) :
    ∃ q r, archiveStatus f n t s p = Except.ok q ∧ q.rowList[j]? = some r ∧
      r.hostNamePort.map QLabel.text =
        some (argInt (arg "%1:%2 " s[j].hostName) s[j].portNumber) ∧
      ('%' ∉ s[j].hostName.data → r.hostNamePort.map QLabel.text =
        some (s[j].hostName ++ ":" ++ toString s[j].portNumber ++ " ")) ∧
      r.endPoint.map QLabel.text = some (s[j].endPoint ++ " ") ∧
      r.state.map QLabel.text = some (f s[j].state) ∧
      r.numberPVs.map QLabel.text = some (toString s[j].numberPVs) ∧
      (t = ArchiverTypes.CA →
        r.available.map QLabel.text = some (toString s[j].available) ∧
        r.read.map QLabel.text = some (toString s[j].read) ∧
        r.pending.map QLabel.text = some (toString s[j].pending)) := by
  obtain ⟨r, hr, hrw⟩ := hp.ok_data j hjn
  have hu : rowUpdated f t s j r = rowShown t true (rowFilled f t s[j] r) := by
    unfold rowUpdated
    rw [dif_pos hj]
  have hh : (rowUpdated f t s j r).hostNamePort.map QLabel.text =
      some (argInt (arg "%1:%2 " s[j].hostName) s[j].portNumber) := by
    rw [hu]
    simp only [rowShown, rowFilled, withVisible_text]
    exact withText_text _ _ hrw.1
  refine ⟨_, rowUpdated f t s j r, archiveStatus_eq f n t s p hp.ok_data,
    by simp [getElem?_rowsUpdated, hr, hjn], hh, ?_, ?_, ?_, ?_, ?_⟩
  · intro hpc
    rw [hh, arg_hostNamePort _ _ hpc]
  · rw [hu]
    simp only [rowShown, rowFilled, withVisible_text, arg_endPoint]
    exact withText_text _ _ hrw.2.1
  · rw [hu]
    simp only [rowShown, rowFilled, withVisible_text]
    exact withText_text _ _ hrw.2.2.1
  · rw [hu]
    simp only [rowShown, rowFilled, withVisible_text, argInt_count]
    exact withText_text _ _ hrw.2.2.2.1
  · intro ht
    subst ht
    rw [hu]
    simp only [rowShown, rowFilled, withVisible_text, argInt_count, if_true]
    exact ⟨withText_text _ _ (hrw.2.2.2.2 rfl).1, withText_text _ _ (hrw.2.2.2.2 rfl).2.1,
      withText_text _ _ (hrw.2.2.2.2 rfl).2.2⟩

/-- The example of the spec: the entry for host arc1 fills row 0 with the texts
"arc1:5064 ", "/data ", "Running" and "120". -/
theorem archiveStatus_texts_example :
    ∃ q r, archiveStatus stateName 2 ArchiverTypes.CA [exampleStatus]
        (examplePanel ArchiverTypes.CA) = Except.ok q ∧ q.rowList[0]? = some r ∧
      r.hostNamePort.map QLabel.text = some "arc1:5064 " ∧
      r.endPoint.map QLabel.text = some "/data " ∧
      r.state.map QLabel.text = some "Running" ∧
      r.numberPVs.map QLabel.text = some "120" ∧
      r.isVisible = true ∧ q.minimumHeight = 64 :=
  ⟨_, _, rfl, rfl, by decide, by decide, by decide, by decide, by decide, by decide⟩

/-- C4, at the failing input: for the host name "%1" and port 5064 the host and
port label of row 0 reads "5064:%2 " and not "%1:5064 ". -/
theorem archiveStatus_hostNamePort_marker :
    ∃ q r, archiveStatus stateName 2 ArchiverTypes.CA
        [{ exampleStatus with hostName := "%1" }] (examplePanel ArchiverTypes.CA) =
          Except.ok q ∧
      q.rowList[0]? = some r ∧
      r.hostNamePort.map QLabel.text = some "5064:%2 " ∧
      r.hostNamePort.map QLabel.text ≠ some ("%1" ++ ":" ++ toString (5064 : Int) ++ " ") :=
  ⟨_, _, rfl, rfl, by decide, by decide⟩

end QEArchiveStatus
